import Mathlib

/-!
Shallow embedding of `src/backend/claudeapi.py` (class `ClaudeChatbot`).

The program stores chat messages as JSON strings inside a document store and
reads them back with `json.loads`.  The two external collaborators are modelled
by their contracts as the source uses them:

* the completion collaborator (`self.client.messages.create`) either returns a
  response string or raises; a call outcome is passed in as
  `Except String String`;
* the document store (`InMemoryDocumentStore`) persists documents and returns
  them filtered by the `conversation_id` meta tag, in insertion order; it is
  modelled as an append-only list of documents;
* `datetime.now()` values are passed in explicitly as the formatted strings
  the source derives from them.

`json.dumps` / `json.loads` from the Python standard library are embedded
faithfully for the inputs this program feeds them: every stored document's
content is `json.dumps` of a flat object with exactly the string fields
`role`, `content`, `timestamp` (default options, so `ensure_ascii=True`,
separators `", "` and `": "`).  The encoder below implements Python's
`py_encode_basestring_ascii` escaping (short escapes, `\uXXXX`, surrogate
pairs) and the decoder implements `py_scanstring` plus flat-object parsing.
Lone surrogates, which Lean's `Char` cannot represent and which this program
never produces, make the decoder return `none`.
-/

namespace ClaudeApi

/-- One lowercase hex digit, as produced by Python's `"%04x"` formatting. -/
def toHexDigit (n : Nat) : Char :=
  if n < 10 then Char.ofNat (48 + n) else Char.ofNat (87 + n)

/-- Read one hex digit; `json.loads` accepts both cases. -/
def fromHexDigit (c : Char) : Option Nat :=
  if 48 ≤ c.toNat ∧ c.toNat ≤ 57 then some (c.toNat - 48)
  else if 97 ≤ c.toNat ∧ c.toNat ≤ 102 then some (c.toNat - 87)
  else if 65 ≤ c.toNat ∧ c.toNat ≤ 70 then some (c.toNat - 55)
  else none

/-- The four hex digits of `n % 0x10000`, as in Python's `"\\u%04x" % n`. -/
def toHex4 (n : Nat) : List Char :=
  [toHexDigit (n / 4096 % 16), toHexDigit (n / 256 % 16),
   toHexDigit (n / 16 % 16), toHexDigit (n % 16)]

/-- Combine four hex digits into a code unit. -/
def fromHex4 (a b c d : Char) : Option Nat :=
  match fromHexDigit a, fromHexDigit b, fromHexDigit c, fromHexDigit d with
  | some x, some y, some z, some w => some (x * 4096 + y * 256 + z * 16 + w)
  | _, _, _, _ => none

/-- Escaping of one character in `json.dumps` with `ensure_ascii=True`
(CPython `py_encode_basestring_ascii`): the seven short escapes, printable
ASCII verbatim, `\uXXXX` for everything else, with surrogate pairs above
`0xFFFF`. -/
def escapeChar (c : Char) : List Char :=
  if c = '\\' then ['\\', '\\']
  else if c = '"' then ['\\', '"']
  else if c = '\x08' then ['\\', 'b']
  else if c = '\x0c' then ['\\', 'f']
  else if c = '\n' then ['\\', 'n']
  else if c = '\r' then ['\\', 'r']
  else if c = '\t' then ['\\', 't']
  else if 32 ≤ c.toNat ∧ c.toNat ≤ 126 then [c]
  else if c.toNat < 65536 then '\\' :: 'u' :: toHex4 c.toNat
  else '\\' :: 'u' :: toHex4 (55296 + (c.toNat - 65536) / 1024)
       ++ '\\' :: 'u' :: toHex4 (56320 + (c.toNat - 65536) % 1024)

/-- `json.dumps` applied to a string value: quote, escape each character,
quote. -/
def encodeJsonString (s : String) : List Char :=
  '"' :: s.toList.flatMap escapeChar ++ ['"']

/-- Prepend a decoded character to the result of a string-body parse. -/
def consFst (c : Char) : Option (List Char × List Char) → Option (List Char × List Char)
  | none => none
  | some (s, r) => some (c :: s, r)

/-- The low half of a surrogate pair: `\uXXXX` expected right after a high
surrogate `n`, as CPython's `py_scanstring` reads it.  A lone high surrogate,
which Python would keep as an unpaired surrogate character, has no `Char`
counterpart and yields `none` (never produced by this program's encoder). -/
def parseLowSurrogate (n : Nat) : List Char → Option (Char × List Char)
  | s1 :: s2 :: a2 :: b2 :: c3 :: d2 :: r2 =>
    if s1 = '\\' ∧ s2 = 'u' then
      match fromHex4 a2 b2 c3 d2 with
      | none => none
      | some m =>
        if 56320 ≤ m ∧ m ≤ 57343 then
          some (Char.ofNat (65536 + (n - 55296) * 1024 + (m - 56320)), r2)
        else none
    else none
  | _ => none

/-- The four hex digits after `\u`, plus surrogate-pair recombination. -/
def parseUnicodeEsc : List Char → Option (Char × List Char)
  | a :: b :: c2 :: d :: r =>
    match fromHex4 a b c2 d with
    | none => none
    | some n =>
      if 55296 ≤ n ∧ n ≤ 56319 then parseLowSurrogate n r
      else if 56320 ≤ n ∧ n ≤ 57343 then none
      else some (Char.ofNat n, r)
  | _ => none

/-- The character after a backslash: one escape sequence, returning the
decoded character and the unconsumed rest. -/
def parseEscape : List Char → Option (Char × List Char)
  | [] => none
  | e :: rest2 =>
    if e = '"' then some ('"', rest2)
    else if e = '\\' then some ('\\', rest2)
    else if e = '/' then some ('/', rest2)
    else if e = 'b' then some ('\x08', rest2)
    else if e = 'f' then some ('\x0c', rest2)
    else if e = 'n' then some ('\n', rest2)
    else if e = 'r' then some ('\r', rest2)
    else if e = 't' then some ('\t', rest2)
    else if e = 'u' then parseUnicodeEsc rest2
    else none

/-- Body of CPython's `py_scanstring` (strict mode), after the opening quote:
read characters up to the closing quote, rejecting raw control characters and
resolving backslash escapes.  `fuel` only bounds the number of loop
iterations; every iteration consumes at least one character, so callers pass
the input length plus one and the bound is never the reason a parse stops. -/
def parseStringLoop : Nat → List Char → Option (List Char × List Char)
  | 0, _ => none
  | _ + 1, [] => none
  | fuel + 1, c :: rest =>
    if c = '"' then some ([], rest)
    else if c = '\\' then
      match parseEscape rest with
      | none => none
      | some (ch, r) => consFst ch (parseStringLoop fuel r)
    else if c.toNat < 32 then none
    else consFst c (parseStringLoop fuel rest)

/-- Parse a JSON string literal (opening quote included). -/
def parseJsonString : List Char → Option (String × List Char)
  | [] => none
  | c :: rest =>
    if c = '"' then
      match parseStringLoop (rest.length + 1) rest with
      | some (cs, r) => some (⟨cs⟩, r)
      | none => none
    else none

/-- Skip JSON whitespace, as `json.loads` does between tokens. -/
def ws (l : List Char) : List Char :=
  l.dropWhile (fun c => c == ' ' || c == '\t' || c == '\n' || c == '\r')

/-- Parse the members of a flat JSON object whose values are all strings
(the only object shape this program ever stores), after the opening brace.
`fuel` bounds the number of members; callers pass the input length. -/
def parseMembers : Nat → List Char → Option (List (String × String) × List Char)
  | 0, _ => none
  | fuel + 1, l =>
    match parseJsonString (ws l) with
    | none => none
    | some (k, r1) =>
      match ws r1 with
      | [] => none
      | c :: r2 =>
        if c = ':' then
          match parseJsonString (ws r2) with
          | none => none
          | some (v, r3) =>
            match ws r3 with
            | [] => none
            | c2 :: r4 =>
              if c2 = ',' then
                match parseMembers fuel r4 with
                | none => none
                | some (pairs, r5) => some ((k, v) :: pairs, r5)
              else if c2 = '\x7d' then some ([(k, v)], r4)
              else none
        else none

/-- Python `dict` lookup built from parsed members (later keys win). -/
def dictGet (pairs : List (String × String)) (k : String) : Option String :=
  pairs.reverse.lookup k

/-- A chat message as the source builds it in `_store_message`:
`{"role": …, "content": …, "timestamp": …}`. -/
structure Message where
  role : String
  content : String
  timestamp : String
deriving DecidableEq, Repr

/-- `json.dumps(message)` with default options: the three fields in insertion
order, separators `", "` and `": "`. -/
def dumpsList (m : Message) : List Char :=
  '\x7b' :: (encodeJsonString "role" ++ ':' :: ' ' :: encodeJsonString m.role
    ++ ',' :: ' ' :: encodeJsonString "content" ++ ':' :: ' ' :: encodeJsonString m.content
    ++ ',' :: ' ' :: encodeJsonString "timestamp" ++ ':' :: ' ' :: encodeJsonString m.timestamp
    ++ ['\x7d'])

def jsonDumps (m : Message) : String := ⟨dumpsList m⟩

/-- `json.loads(doc.content)` followed by the key accesses `message["role"]`,
`message["content"]`, `message["timestamp"]` that the source performs on the
resulting dict.  Defined on the flat string-object grammar, the only JSON this
program ever stores; anything else yields `none`. -/
def jsonLoads (s : String) : Option Message :=
  match ws s.toList with
  | [] => none
  | c :: rest =>
    if c = '\x7b' then
      match parseMembers (rest.length + 3) rest with
      | none => none
      | some (pairs, r) =>
        if ws r = [] then
          match dictGet pairs "role", dictGet pairs "content", dictGet pairs "timestamp" with
          | some role, some content, some ts => some ⟨role, content, ts⟩
          | _, _, _ => none
        else none
    else none

/-! ### Round-trip of the JSON embedding -/

theorem char_toNat_valid (c : Char) :
    c.toNat < 55296 ∨ (57343 < c.toNat ∧ c.toNat < 1114112) := by
  rcases c.valid with h | ⟨h1, h2⟩
  · exact Or.inl (UInt32.toNat_lt_of_lt (by norm_num) h)
  · exact Or.inr ⟨UInt32.lt_toNat_of_lt (by norm_num) h1,
      UInt32.toNat_lt_of_lt (by norm_num) h2⟩

theorem fromHexDigit_toHexDigit {d : Nat} (h : d < 16) :
    fromHexDigit (toHexDigit d) = some d := by
  interval_cases d <;> decide

theorem fromHex4_toHex4 {n : Nat} (h : n < 65536) :
    fromHex4 (toHexDigit (n / 4096 % 16)) (toHexDigit (n / 256 % 16))
      (toHexDigit (n / 16 % 16)) (toHexDigit (n % 16)) = some n := by
  have h1 : n / 4096 % 16 < 16 := Nat.mod_lt _ (by norm_num)
  have h2 : n / 256 % 16 < 16 := Nat.mod_lt _ (by norm_num)
  have h3 : n / 16 % 16 < 16 := Nat.mod_lt _ (by norm_num)
  have h4 : n % 16 < 16 := Nat.mod_lt _ (by norm_num)
  simp only [fromHex4, fromHexDigit_toHexDigit h1, fromHexDigit_toHexDigit h2,
    fromHexDigit_toHexDigit h3, fromHexDigit_toHexDigit h4, Option.some.injEq]
  omega

theorem parseStringLoop_quote (f : Nat) (rest : List Char) :
    parseStringLoop (f + 1) ('"' :: rest) = some ([], rest) := by
  simp +decide only [parseStringLoop, reduceIte]

theorem parseStringLoop_lit (f : Nat) (c : Char) (rest : List Char)
    (h1 : ¬ c = '"') (h2 : ¬ c = '\\') (h3 : ¬ c.toNat < 32) :
    parseStringLoop (f + 1) (c :: rest) = consFst c (parseStringLoop f rest) := by
  simp only [parseStringLoop, h1, h2, h3, reduceIte, if_false]

theorem parseStringLoop_esc (f : Nat) (ch : Char) (l r : List Char)
    (h : parseEscape l = some (ch, r)) :
    parseStringLoop (f + 1) ('\\' :: l) = consFst ch (parseStringLoop f r) := by
  simp +decide only [parseStringLoop, h, reduceIte]

theorem parseEscape_u (x1 x2 x3 x4 : Char) (l : List Char) :
    parseEscape ('u' :: x1 :: x2 :: x3 :: x4 :: l)
      = parseUnicodeEsc (x1 :: x2 :: x3 :: x4 :: l) := by
  simp +decide only [parseEscape, reduceIte]

theorem parseUnicodeEsc_toHex4_plain (n : Nat) (l : List Char)
    (hn : n < 55296 ∨ (57343 < n ∧ n < 65536)) :
    parseUnicodeEsc (toHexDigit (n / 4096 % 16) :: toHexDigit (n / 256 % 16)
        :: toHexDigit (n / 16 % 16) :: toHexDigit (n % 16) :: l)
      = some (Char.ofNat n, l) := by
  have hd : n < 65536 := by omega
  have ha : ¬ (55296 ≤ n ∧ n ≤ 56319) := by omega
  have hb : ¬ (56320 ≤ n ∧ n ≤ 57343) := by omega
  simp only [parseUnicodeEsc, fromHex4_toHex4 hd, ha, hb, reduceIte, if_false]

theorem parseUnicodeEsc_toHex4_high (n : Nat) (l : List Char)
    (hn1 : 55296 ≤ n) (hn2 : n ≤ 56319) :
    parseUnicodeEsc (toHexDigit (n / 4096 % 16) :: toHexDigit (n / 256 % 16)
        :: toHexDigit (n / 16 % 16) :: toHexDigit (n % 16) :: l)
      = parseLowSurrogate n l := by
  simp only [parseUnicodeEsc, fromHex4_toHex4 (show n < 65536 from by omega), reduceIte,
    if_pos (show 55296 ≤ n ∧ n ≤ 56319 from ⟨hn1, hn2⟩)]

theorem parseLowSurrogate_toHex4 (n m : Nat) (l : List Char)
    (hm1 : 56320 ≤ m) (hm2 : m ≤ 57343) :
    parseLowSurrogate n ('\\' :: 'u' :: toHexDigit (m / 4096 % 16) :: toHexDigit (m / 256 % 16)
        :: toHexDigit (m / 16 % 16) :: toHexDigit (m % 16) :: l)
      = some (Char.ofNat (65536 + (n - 55296) * 1024 + (m - 56320)), l) := by
  simp +decide only [parseLowSurrogate, fromHex4_toHex4 (show m < 65536 from by omega),
    reduceIte, if_true, and_self,
    if_pos (show 56320 ≤ m ∧ m ≤ 57343 from ⟨hm1, hm2⟩)]

/-- Every escaped character decodes back to itself: either it is emitted
verbatim (printable ASCII other than quote and backslash), or it is emitted as
a backslash escape that `parseEscape` maps back to the character. -/
theorem escapeChar_cases (c : Char) :
    (escapeChar c = [c] ∧ ¬ c = '"' ∧ ¬ c = '\\' ∧ ¬ c.toNat < 32)
    ∨ ∃ t, escapeChar c = '\\' :: t ∧ ∀ rest, parseEscape (t ++ rest) = some (c, rest) := by
  by_cases h1 : c = '\\'
  · right; subst h1
    refine ⟨['\\'], by decide, fun rest => ?_⟩
    rw [List.singleton_append]
    simp +decide only [parseEscape, reduceIte]
  by_cases h2 : c = '"'
  · right; subst h2
    refine ⟨['"'], by decide, fun rest => ?_⟩
    rw [List.singleton_append]
    simp +decide only [parseEscape, reduceIte]
  by_cases h3 : c = '\x08'
  · right; subst h3
    refine ⟨['b'], by decide, fun rest => ?_⟩
    rw [List.singleton_append]
    simp +decide only [parseEscape, reduceIte]
  by_cases h4 : c = '\x0c'
  · right; subst h4
    refine ⟨['f'], by decide, fun rest => ?_⟩
    rw [List.singleton_append]
    simp +decide only [parseEscape, reduceIte]
  by_cases h5 : c = '\n'
  · right; subst h5
    refine ⟨['n'], by decide, fun rest => ?_⟩
    rw [List.singleton_append]
    simp +decide only [parseEscape, reduceIte]
  by_cases h6 : c = '\r'
  · right; subst h6
    refine ⟨['r'], by decide, fun rest => ?_⟩
    rw [List.singleton_append]
    simp +decide only [parseEscape, reduceIte]
  by_cases h7 : c = '\t'
  · right; subst h7
    refine ⟨['t'], by decide, fun rest => ?_⟩
    rw [List.singleton_append]
    simp +decide only [parseEscape, reduceIte]
  by_cases h8 : 32 ≤ c.toNat ∧ c.toNat ≤ 126
  · left
    refine ⟨?_, h2, h1, by omega⟩
    rw [escapeChar]
    simp only [if_neg h1, if_neg h2, if_neg h3, if_neg h4, if_neg h5, if_neg h6,
      if_neg h7, if_pos h8]
  by_cases h10 : c.toNat < 65536
  · right
    refine ⟨'u' :: toHex4 c.toNat, ?_, fun rest => ?_⟩
    · rw [escapeChar]
      simp only [if_neg h1, if_neg h2, if_neg h3, if_neg h4, if_neg h5, if_neg h6,
        if_neg h7, if_neg h8, if_pos h10]
    · rw [List.cons_append, toHex4, List.cons_append, List.cons_append,
        List.cons_append, List.cons_append, List.nil_append, parseEscape_u,
        parseUnicodeEsc_toHex4_plain c.toNat rest
          (by rcases char_toNat_valid c with h | ⟨h, _⟩ <;> omega),
        Char.ofNat_toNat]
  · right
    have hval : c.toNat < 1114112 := by
      rcases char_toNat_valid c with h | ⟨_, h⟩ <;> omega
    have hge : 65536 ≤ c.toNat := by omega
    refine ⟨'u' :: toHex4 (55296 + (c.toNat - 65536) / 1024)
        ++ '\\' :: 'u' :: toHex4 (56320 + (c.toNat - 65536) % 1024), ?_, fun rest => ?_⟩
    · rw [escapeChar]
      simp only [if_neg h1, if_neg h2, if_neg h3, if_neg h4, if_neg h5, if_neg h6,
        if_neg h7, if_neg h8, if_neg h10, List.cons_append]
    · rw [List.cons_append, toHex4, toHex4]
      simp only [List.cons_append, List.nil_append]
      rw [parseEscape_u, parseUnicodeEsc_toHex4_high _ _ (by omega) (by omega),
        parseLowSurrogate_toHex4 _ _ _ (by omega) (by omega)]
      have hc : 65536 + (55296 + (c.toNat - 65536) / 1024 - 55296) * 1024
          + (56320 + (c.toNat - 65536) % 1024 - 56320) = c.toNat := by omega
      rw [hc, Char.ofNat_toNat]

theorem one_le_length_escapeChar (c : Char) : 1 ≤ (escapeChar c).length := by
  rcases escapeChar_cases c with ⟨h, _⟩ | ⟨t, h, _⟩ <;> simp [h]

theorem length_le_length_flatMap_escapeChar (s : List Char) :
    s.length ≤ (s.flatMap escapeChar).length := by
  induction s with
  | nil => simp
  | cons c s ih =>
    simp only [List.flatMap_cons, List.length_append, List.length_cons]
    have := one_le_length_escapeChar c
    omega

theorem parseStringLoop_encode (s : List Char) (f : Nat) (rest : List Char) :
    parseStringLoop (s.length + f + 1) (s.flatMap escapeChar ++ '"' :: rest)
      = some (s, rest) := by
  induction s generalizing f with
  | nil => simpa using parseStringLoop_quote f rest
  | cons c s ih =>
    rcases escapeChar_cases c with ⟨hE, hq, hb, hc⟩ | ⟨t, hE, hP⟩
    · rw [List.flatMap_cons, hE, List.append_assoc, List.singleton_append,
        List.length_cons, parseStringLoop_lit (s.length + 1 + f) c _ hq hb hc,
        show s.length + 1 + f = s.length + f + 1 from by omega, ih f]
      rfl
    · rw [List.flatMap_cons, hE, List.append_assoc, List.cons_append,
        List.length_cons,
        parseStringLoop_esc (s.length + 1 + f) c _ _ (hP _),
        show s.length + 1 + f = s.length + f + 1 from by omega, ih f]
      rfl

theorem parseJsonString_encode (s : String) (rest : List Char) :
    parseJsonString (encodeJsonString s ++ rest) = some (s, rest) := by
  obtain ⟨l⟩ := s
  show parseJsonString (('"' :: l.flatMap escapeChar ++ ['"']) ++ rest) = _
  simp only [List.cons_append, List.append_assoc, List.singleton_append, List.nil_append]
  simp +decide only [parseJsonString, reduceIte]
  have hlen := length_le_length_flatMap_escapeChar l
  obtain ⟨f, hf⟩ : ∃ f, (l.flatMap escapeChar ++ '"' :: rest).length + 1
      = l.length + f + 1 := by
    refine ⟨(l.flatMap escapeChar).length - l.length + rest.length + 1, ?_⟩
    simp only [List.length_append, List.length_cons]
    omega
  rw [hf, parseStringLoop_encode]

theorem ws_cons_of (c : Char) (l : List Char)
    (h : (c == ' ' || c == '\t' || c == '\n' || c == '\r') = false) :
    ws (c :: l) = c :: l := by
  simp [ws, List.dropWhile_cons, h]

theorem ws_encode (s : String) (l : List Char) :
    ws (encodeJsonString s ++ l) = encodeJsonString s ++ l := by
  rw [encodeJsonString, List.cons_append]
  exact ws_cons_of '"' _ (by decide)

theorem ws_colon (l : List Char) : ws (':' :: l) = ':' :: l :=
  ws_cons_of ':' l (by decide)

theorem ws_comma (l : List Char) : ws (',' :: l) = ',' :: l :=
  ws_cons_of ',' l (by decide)

theorem ws_rbrace (l : List Char) : ws ('\x7d' :: l) = '\x7d' :: l :=
  ws_cons_of '\x7d' l (by decide)

theorem ws_lbrace (l : List Char) : ws ('\x7b' :: l) = '\x7b' :: l :=
  ws_cons_of '\x7b' l (by decide)

theorem ws_space (l : List Char) : ws (' ' :: l) = ws l := by
  simp +decide [ws, List.dropWhile_cons]

theorem two_le_length_encodeJsonString (s : String) :
    2 ≤ (encodeJsonString s).length := by
  rw [encodeJsonString]
  simp only [List.length_cons, List.length_append, List.length_singleton]
  omega

theorem parseMembers_congr_ws (f : Nat) (l1 l2 : List Char) (h : ws l1 = ws l2) :
    parseMembers (f + 1) l1 = parseMembers (f + 1) l2 := by
  simp only [parseMembers, h]

theorem parseMembers_step_close (f : Nat) (k v : String) (r : List Char) :
    parseMembers (f + 1) (encodeJsonString k ++ ':' :: ' ' :: encodeJsonString v ++ '\x7d' :: r)
      = some ([(k, v)], r) := by
  simp +decide only [parseMembers, List.cons_append, List.append_assoc, ws_encode,
    ws_space, ws_colon, ws_rbrace, parseJsonString_encode, reduceIte]

theorem parseMembers_step_comma (f : Nat) (k v : String) (r : List Char)
    (pairs : List (String × String)) (r5 : List Char)
    (h : parseMembers f (' ' :: r) = some (pairs, r5)) :
    parseMembers (f + 1) (encodeJsonString k ++ ':' :: ' ' :: encodeJsonString v ++ ',' :: ' ' :: r)
      = some ((k, v) :: pairs, r5) := by
  simp +decide only [parseMembers, List.cons_append, List.append_assoc, ws_encode,
    ws_space, ws_colon, ws_comma, parseJsonString_encode, h, reduceIte]

theorem parseMembers_dumps_body (f : Nat) (m : Message) (rest : List Char) :
    parseMembers (f + 3)
        (encodeJsonString "role" ++ ':' :: ' ' :: (encodeJsonString m.role
          ++ ',' :: ' ' :: (encodeJsonString "content" ++ ':' :: ' ' :: (encodeJsonString m.content
          ++ ',' :: ' ' :: (encodeJsonString "timestamp" ++ ':' :: ' ' :: (encodeJsonString m.timestamp
          ++ '\x7d' :: rest))))))
      = some ([("role", m.role), ("content", m.content), ("timestamp", m.timestamp)], rest) := by
  have h3 : parseMembers (f + 1)
      (encodeJsonString "timestamp" ++ ':' :: ' ' :: encodeJsonString m.timestamp ++ '\x7d' :: rest)
      = some ([("timestamp", m.timestamp)], rest) :=
    parseMembers_step_close f "timestamp" m.timestamp rest
  have h3s : parseMembers (f + 1)
      (' ' :: (encodeJsonString "timestamp" ++ ':' :: ' ' :: (encodeJsonString m.timestamp ++ '\x7d' :: rest)))
      = some ([("timestamp", m.timestamp)], rest) := by
    rw [parseMembers_congr_ws f _ _ (ws_space _)]
    simpa only [List.cons_append, List.append_assoc] using h3
  have h2 : parseMembers (f + 1 + 1)
      (encodeJsonString "content" ++ ':' :: ' ' :: encodeJsonString m.content
        ++ ',' :: ' ' :: (encodeJsonString "timestamp" ++ ':' :: ' ' :: (encodeJsonString m.timestamp ++ '\x7d' :: rest)))
      = some (("content", m.content) :: [("timestamp", m.timestamp)], rest) :=
    parseMembers_step_comma (f + 1) "content" m.content _ _ _ h3s
  have h2s : parseMembers (f + 1 + 1)
      (' ' :: (encodeJsonString "content" ++ ':' :: ' ' :: (encodeJsonString m.content
        ++ ',' :: ' ' :: (encodeJsonString "timestamp" ++ ':' :: ' ' :: (encodeJsonString m.timestamp ++ '\x7d' :: rest)))))
      = some (("content", m.content) :: [("timestamp", m.timestamp)], rest) := by
    rw [parseMembers_congr_ws (f + 1) _ _ (ws_space _)]
    simpa only [List.cons_append, List.append_assoc] using h2
  have h1 : parseMembers (f + 1 + 1 + 1)
      (encodeJsonString "role" ++ ':' :: ' ' :: encodeJsonString m.role
        ++ ',' :: ' ' :: (encodeJsonString "content" ++ ':' :: ' ' :: (encodeJsonString m.content
        ++ ',' :: ' ' :: (encodeJsonString "timestamp" ++ ':' :: ' ' :: (encodeJsonString m.timestamp ++ '\x7d' :: rest)))))
      = some (("role", m.role) :: ("content", m.content) :: [("timestamp", m.timestamp)], rest) :=
    parseMembers_step_comma (f + 1 + 1) "role" m.role _ _ _ h2s
  simpa only [List.cons_append, List.append_assoc] using h1

theorem jsonLoads_jsonDumps (m : Message) : jsonLoads (jsonDumps m) = some m := by
  rw [jsonDumps, jsonLoads,
    show (String.mk (dumpsList m)).toList = dumpsList m from rfl, dumpsList, ws_lbrace]
  simp +decide only [reduceIte, List.cons_append, List.append_assoc]
  rw [parseMembers_dumps_body]
  simp +decide only [ws, List.dropWhile_nil, reduceIte, dictGet, List.reverse_cons,
    List.reverse_nil, List.nil_append, List.cons_append, List.append_nil, List.lookup,
    String.reduceBEq]

/-! ### Data model and operations of `ClaudeChatbot` -/

/-- A document as `_store_message` writes it into the Haystack store:
`Document(content=json.dumps(message), meta={...})`.  The `conversation_id`
meta value is whatever `self.current_conversation_id` holds, which is `None`
before any conversation started, hence `Option String`. -/
structure Doc where
  content : String
  conversation_id : Option String
  timestamp : String
  role : String
deriving DecidableEq, Repr

/-- One entry of the list `search_conversations` builds.  The score is a
Python float that is only ever `1.0` or `0.0`, both exactly representable;
it is embedded as a rational. -/
structure SearchResult where
  conversation_id : Option String
  message : Message
  score : ℚ
deriving DecidableEq, Repr

/-- The mutable state of a `ClaudeChatbot` instance: the document store
(append-only, insertion order) and the current-conversation fields. -/
structure ChatbotState where
  document_store : List Doc
  current_conversation_id : Option String
  messages : List Message
deriving Repr

/-- State after `__init__`: empty store, no current conversation. -/
def initialState : ChatbotState :=
  { document_store := [], current_conversation_id := none, messages := [] }

/-- Python truthiness of `self.current_conversation_id` (an optional string):
`None` and `""` are falsy. -/
def truthyOptStr : Option String → Bool
  | none => false
  | some s => s ≠ ""

/-- `start_new_conversation`.  The identifier
`datetime.now().strftime("%Y%m%d_%H%M%S")` is passed in as the formatted
string `now`. -/
def start_new_conversation (st : ChatbotState) (now : String) : String × ChatbotState :=
  (now, { st with current_conversation_id := some now, messages := [] })

/-- `_store_message`: append to the in-memory buffer and write a document
holding `json.dumps(message)` with conversation id, timestamp and role meta
tags.  `datetime.now().isoformat()` is passed in as `timestamp`. -/
def store_message (st : ChatbotState) (role content timestamp : String) : ChatbotState :=
  let message : Message := { role := role, content := content, timestamp := timestamp }
  let doc : Doc :=
    { content := jsonDumps message
      conversation_id := st.current_conversation_id
      timestamp := timestamp
      role := role }
  { st with
      messages := st.messages ++ [message]
      document_store := st.document_store ++ [doc] }

/-- The first half of `chat`: implicitly start a conversation if none is
active (`if not self.current_conversation_id`), then persist the user
message.  This is the state in which the completion collaborator is invoked. -/
def chat_pre (st : ChatbotState) (user_input newConvId tsUser : String) : ChatbotState :=
  let st1 := if truthyOptStr st.current_conversation_id then st
             else (start_new_conversation st newConvId).2
  store_message st1 "user" user_input tsUser

/-- `chat`: store the user message, call the completion collaborator, and on
success store and return the assistant message; on any exception return
`"Error: " ++ str(e)` without storing an assistant message.  The
collaborator outcome is passed in as `collab`; the two `datetime.now()`
values as `tsUser` and `tsAsst`; the id a fresh implicit conversation would
get as `newConvId`. -/
def chat (st : ChatbotState) (user_input newConvId tsUser : String)
    (collab : Except String String) (tsAsst : String) : String × ChatbotState :=
  let st1 := chat_pre st user_input newConvId tsUser
  match collab with
  | .ok assistant_message =>
      (assistant_message, store_message st1 "assistant" assistant_message tsAsst)
  | .error e => ("Error: " ++ e, st1)

/-- `get_conversation_history`: `conv_id = conversation_id or
self.current_conversation_id` (Python `or`: an empty-string argument falls
through to the current id), empty result if `conv_id` is falsy; otherwise
filter the store by the `conversation_id` meta tag, `json.loads` each
document's content, and sort ascending by the `timestamp` field (Python
`list.sort` is stable; ties keep store order).  A document whose content
`json.loads` cannot parse would raise in Python; it is skipped here, and
every document this program stores parses back (`jsonLoads_jsonDumps`). -/
def get_conversation_history (st : ChatbotState) (conversation_id : Option String) :
    List Message :=
  let conv_id : Option String :=
    match conversation_id with
    | some s => if s = "" then st.current_conversation_id else some s
    | none => st.current_conversation_id
  match conv_id with
  | none => []
  | some cid =>
    if cid = "" then []
    else
      let docs := st.document_store.filter (fun d => d.conversation_id == some cid)
      let messages := docs.filterMap (fun d => jsonLoads d.content)
      messages.mergeSort (fun a b => a.timestamp ≤ b.timestamp)

/-- Python `str.lower()`.  Embedded as character-wise ASCII lowering
(`Char.toLower`); every claim compares query and content through this same
function, so the comparison is like-for-like. -/
def pyLower (s : String) : String := ⟨s.toList.map Char.toLower⟩

/-- Python substring containment `q in s` (contiguous substring). -/
def pyIn (q s : String) : Bool := decide (q.toList <:+: s.toList)

/-- Python list slicing `l[:k]` for an arbitrary integer `k`: a nonnegative
`k` keeps the first `k` elements; a negative `k` drops the last `|k|`. -/
def pySlice {α : Type} (l : List α) (k : Int) : List α :=
  if 0 ≤ k then l.take k.toNat else l.take (l.length - (-k).toNat)

/-- The full-scan match loop of `search_conversations`: for every stored
document, parse its content and keep it when `query.lower() in
message["content"].lower()`; the score expression is evaluated inside the
kept branch exactly as in the source. -/
def searchMatches (st : ChatbotState) (query : String) : List SearchResult :=
  st.document_store.filterMap (fun doc =>
    match jsonLoads doc.content with
    | none => none
    | some message =>
      if pyIn (pyLower query) (pyLower message.content) then
        some { conversation_id := doc.conversation_id
               message := message
               score := if pyIn (pyLower query) (pyLower message.content) then (1 : ℚ) else 0 }
      else none)

/-- `results.sort(key=lambda x: x["score"], reverse=True)` — a stable
descending sort by score. -/
def searchSorted (st : ChatbotState) (query : String) : List SearchResult :=
  (searchMatches st query).mergeSort (fun a b => b.score ≤ a.score)

/-- `search_conversations(query, top_k=5)`: match, sort, `results[:top_k]`. -/
def search_conversations (st : ChatbotState) (query : String) (top_k : Int := 5) :
    List SearchResult :=
  pySlice (searchSorted st query) top_k

/-! ### Traces of operations (for the storage-order invariant) -/

/-- One call into the session manager: `start_new_conversation` or `chat`,
with the clock readings the call consumes. -/
inductive Op where
  | startOp (now : String)
  | sendOp (user_input newConvId tsUser : String) (collab : Except String String)
      (tsAsst : String)

def runOp (st : ChatbotState) : Op → ChatbotState
  | .startOp now => (start_new_conversation st now).2
  | .sendOp input newId tsU collab tsA => (chat st input newId tsU collab tsA).2

def runOps (st : ChatbotState) (ops : List Op) : ChatbotState :=
  ops.foldl runOp st

/-- The `datetime.now().isoformat()` readings an operation stores, in the
order it takes them. -/
def opStamps : Op → List String
  | .startOp _ => []
  | .sendOp _ _ tsU collab tsA =>
    match collab with
    | .ok _ => [tsU, tsA]
    | .error _ => [tsU]

def traceStamps (ops : List Op) : List String := ops.flatMap opStamps

/-- The timestamps of the store's documents, in storage order. -/
def storeStamps (st : ChatbotState) : List String :=
  st.document_store.map (fun d => d.timestamp)

theorem storeStamps_runOp (st : ChatbotState) (op : Op) :
    storeStamps (runOp st op) = storeStamps st ++ opStamps op := by
  cases op with
  | startOp now => simp [runOp, start_new_conversation, storeStamps, opStamps]
  | sendOp input newId tsU collab tsA =>
    cases collab with
    | ok a =>
      simp only [runOp, chat, chat_pre, opStamps, storeStamps, store_message]
      by_cases h : truthyOptStr st.current_conversation_id <;>
        simp [h, start_new_conversation]
    | error e =>
      simp only [runOp, chat, chat_pre, opStamps, storeStamps, store_message]
      by_cases h : truthyOptStr st.current_conversation_id <;>
        simp [h, start_new_conversation]

theorem storeStamps_runOps (st : ChatbotState) (ops : List Op) :
    storeStamps (runOps st ops) = storeStamps st ++ traceStamps ops := by
  induction ops generalizing st with
  | nil => simp [runOps, traceStamps]
  | cons op ops ih =>
    simp only [runOps, List.foldl_cons, traceStamps, List.flatMap_cons]
    rw [show ops.foldl runOp (runOp st op) = runOps (runOp st op) ops from rfl, ih,
      storeStamps_runOp, List.append_assoc, traceStamps]

/-! ### Helper lemmas about search and history -/

theorem searchMatches_mem (st : ChatbotState) (q : String) (r : SearchResult)
    (h : r ∈ searchMatches st q) :
    r.score = 1 ∧ pyIn (pyLower q) (pyLower r.message.content) = true := by
  rw [searchMatches, List.mem_filterMap] at h
  obtain ⟨doc, _, hf⟩ := h
  rcases hm : jsonLoads doc.content with _ | message
  · rw [hm] at hf
    exact absurd hf (by simp)
  · rw [hm] at hf
    simp only at hf
    by_cases hq : pyIn (pyLower q) (pyLower message.content) = true
    · rw [if_pos hq] at hf
      obtain rfl := Option.some.injEq .. ▸ hf
      exact ⟨by simp [hq], by simpa using hq⟩
    · rw [if_neg hq] at hf
      exact absurd hf (by simp)

theorem searchSorted_eq_searchMatches (st : ChatbotState) (q : String) :
    searchSorted st q = searchMatches st q := by
  rw [searchSorted]
  apply List.mergeSort_of_sorted
  apply List.pairwise_of_forall_mem_list
  intro a ha b hb
  have h1 := (searchMatches_mem st q a ha).1
  have h2 := (searchMatches_mem st q b hb).1
  simp [h1, h2]

/-- Unfolding of `get_conversation_history` for an explicit nonempty id. -/
theorem get_conversation_history_some (st : ChatbotState) (cid : String) (h : ¬ cid = "") :
    get_conversation_history st (some cid)
      = ((st.document_store.filter (fun d => d.conversation_id == some cid)).filterMap
          (fun d => jsonLoads d.content)).mergeSort
            (fun a b => decide (a.timestamp ≤ b.timestamp)) := by
  simp only [get_conversation_history, if_neg h]

theorem pairwise_ts_mergeSort (l : List Message) :
    (l.mergeSort (fun a b => decide (a.timestamp ≤ b.timestamp))).Pairwise
      (fun a b => a.timestamp ≤ b.timestamp) := by
  have h := @List.sorted_mergeSort Message
    (fun a b => decide (a.timestamp ≤ b.timestamp))
    (fun a b c h1 h2 => by
      simp only [decide_eq_true_eq] at h1 h2 ⊢
      exact le_trans h1 h2)
    (fun a b => by
      simpa using le_total a.timestamp b.timestamp)
    l
  exact h.imp (fun hab => by simpa using hab)

/-- The history output is sorted by timestamp, for every state and every
argument (including the default `None`). -/
theorem history_sorted (st : ChatbotState) (cido : Option String) :
    ((get_conversation_history st cido).map (fun m => m.timestamp)).Pairwise (· ≤ ·) := by
  simp only [get_conversation_history]
  cases cido with
  | none =>
    cases st.current_conversation_id with
    | none => simp
    | some c =>
      by_cases h : c = ""
      · simp [h, List.pairwise_map]
      · simp only [if_neg h, List.pairwise_map]
        exact (pairwise_ts_mergeSort _).imp (fun hab => hab)
  | some s =>
    by_cases hs : s = ""
    · simp only [hs, if_pos rfl, reduceIte]
      cases st.current_conversation_id with
      | none => simp
      | some c =>
        by_cases h : c = ""
        · simp [h, List.pairwise_map]
        · simp only [if_neg h, List.pairwise_map]
          exact (pairwise_ts_mergeSort _).imp (fun hab => hab)
    · simp only [if_neg hs, List.pairwise_map]
      exact (pairwise_ts_mergeSort _).imp (fun hab => hab)

theorem pyIn_empty_left (s : String) : pyIn "" s = true := by
  simp [pyIn]

theorem length_filterMap_of_isSome {α β : Type} (f : α → Option β) :
    ∀ l : List α, (∀ a ∈ l, (f a).isSome) → (l.filterMap f).length = l.length
  | [], _ => rfl
  | a :: l, h => by
    rcases hfa : f a with _ | b
    · exact absurd (hfa ▸ h a (by simp)) (by simp)
    · rw [List.filterMap_cons, hfa, List.length_cons,
        length_filterMap_of_isSome f l (fun x hx => h x (by simp [hx])), List.length_cons]

/-! ### The claims -/

/-- C2, counterexample state: two stored messages whose contents contain
`"a"`. -/
def c2State : ChatbotState :=
  { document_store :=
      [ { content := jsonDumps ⟨"user", "a", "t1"⟩, conversation_id := some "c1",
          timestamp := "t1", role := "user" },
        { content := jsonDumps ⟨"user", "ab", "t2"⟩, conversation_id := some "c1",
          timestamp := "t2", role := "user" } ],
    current_conversation_id := some "c1",
    messages := [] }

theorem c2State_matches : searchMatches c2State "a"
    = [⟨some "c1", ⟨"user", "a", "t1"⟩, 1⟩, ⟨some "c1", ⟨"user", "ab", "t2"⟩, 1⟩] := by
  simp only [searchMatches, c2State, List.filterMap_cons, List.filterMap_nil,
    jsonLoads_jsonDumps]
  simp +decide [pyIn, pyLower]

/-- C2, refuted as stated: with a negative limit, Python's `results[:top_k]`
drops the last `|top_k|` entries instead of returning an empty list; on a
store with two matches, `search_conversations(q, -1)` returns one entry. -/
theorem search_neg_limit_counterexample :
    ¬ (search_conversations c2State "a" (-1) = []) := by
  rw [search_conversations, searchSorted_eq_searchMatches, c2State_matches]
  simp +decide [pySlice]

/-- C2 (amended): for `k = 0` the result is empty; for `k < 0` the result is
the sorted match list with its last `|k|` entries dropped, which is empty
precisely when at most `|k|` stored messages match. -/
theorem search_nonpos_limit (st : ChatbotState) (q : String) (k : Int) (h : k ≤ 0) :
    search_conversations st q k
      = (if k = 0 then []
         else (searchSorted st q).take ((searchSorted st q).length - (-k).toNat))
    ∧ ((searchSorted st q).length ≤ (-k).toNat → search_conversations st q k = []) := by
  constructor
  · by_cases h0 : k = 0
    · subst h0
      simp [search_conversations, pySlice]
    · rw [if_neg h0, search_conversations, pySlice, if_neg (by omega : ¬ (0 : Int) ≤ k)]
  · intro hlen
    rw [search_conversations, pySlice]
    by_cases h0 : k = 0
    · subst h0
      simp
    · rw [if_neg (by omega : ¬ (0 : Int) ≤ k)]
      rw [show (searchSorted st q).length - (-k).toNat = 0 from by omega, List.take_zero]

theorem search_nonpos_limit_witness :
    ((-2 : Int) ≤ 0) ∧ search_conversations c2State "a" (-2) = [] := by
  have h := search_nonpos_limit c2State "a" (-2) (by decide)
  refine ⟨by decide, h.2 ?_⟩
  rw [searchSorted_eq_searchMatches, c2State_matches]
  simp

/-- C3: with a positive limit, search returns at most `k` entries and every
returned entry's content contains the query case-insensitively (the code's
own comparison, `query.lower() in content.lower()`). -/
theorem search_pos_limit (st : ChatbotState) (q : String) (k : Int) (h : 0 < k) :
    (search_conversations st q k).length ≤ k.toNat
    ∧ ∀ r ∈ search_conversations st q k,
        pyIn (pyLower q) (pyLower r.message.content) = true := by
  constructor
  · rw [search_conversations, pySlice, if_pos (le_of_lt h)]
    exact List.length_take_le ..
  · intro r hr
    rw [search_conversations, pySlice, if_pos (le_of_lt h)] at hr
    have hr2 : r ∈ searchSorted st q := List.mem_of_mem_take hr
    rw [searchSorted_eq_searchMatches] at hr2
    exact (searchMatches_mem st q r hr2).2

theorem search_pos_limit_witness :
    ((0 : Int) < 1)
    ∧ (search_conversations c2State "a" 1).length ≤ (1 : Int).toNat
    ∧ pyIn (pyLower "a")
        (pyLower (SearchResult.mk (some "c1") (Message.mk "user" "a" "t1") 1).message.content)
        = true := by
  have h := search_pos_limit c2State "a" 1 (by decide)
  refine ⟨by decide, h.1, ?_⟩
  apply h.2
  rw [search_conversations, searchSorted_eq_searchMatches, c2State_matches]
  simp +decide [pySlice]

/-- C8: every emitted search entry carries score `1.0` (an entry with score
`0.0` is never emitted), and because all scores are equal the stable
descending sort leaves the matches in full-scan order. -/
theorem search_score_one_scan_order (st : ChatbotState) (q : String) (k : Int) :
    (∀ r ∈ search_conversations st q k, r.score = 1)
    ∧ searchSorted st q = searchMatches st q := by
  refine ⟨fun r hr => ?_, searchSorted_eq_searchMatches st q⟩
  have hr2 : r ∈ searchSorted st q := by
    rw [search_conversations, pySlice] at hr
    by_cases h0 : (0 : Int) ≤ k
    · rw [if_pos h0] at hr
      exact List.mem_of_mem_take hr
    · rw [if_neg h0] at hr
      exact List.mem_of_mem_take hr
  rw [searchSorted_eq_searchMatches] at hr2
  exact (searchMatches_mem st q r hr2).1

theorem search_score_one_scan_order_witness :
    (SearchResult.mk (some "c1") (Message.mk "user" "a" "t1") 1).score = 1
    ∧ searchSorted c2State "a" = searchMatches c2State "a" := by
  have h := search_score_one_scan_order c2State "a" 5
  refine ⟨?_, h.2⟩
  apply h.1
  rw [search_conversations, searchSorted_eq_searchMatches, c2State_matches]
  simp +decide [pySlice]

/-- C9: the empty query matches every stored message (the empty string is a
substring of everything), so with the default limit 5 the search returns
`min n 5` entries for a store of `n` well-formed documents. -/
theorem search_empty_query_matches_all (st : ChatbotState)
    (h : ∀ d ∈ st.document_store, ∃ m : Message, d.content = jsonDumps m) :
    (search_conversations st "" 5).length = min st.document_store.length 5 := by
  have hm : (searchMatches st "").length = st.document_store.length := by
    rw [searchMatches]
    apply length_filterMap_of_isSome
    intro d hd
    obtain ⟨m, hc⟩ := h d hd
    rw [hc, jsonLoads_jsonDumps]
    simp only [Option.isSome]
    rw [if_pos]
    rw [show pyLower "" = "" from rfl, pyIn_empty_left]
  rw [search_conversations, pySlice, if_pos (by norm_num), searchSorted_eq_searchMatches,
    List.length_take, hm]
  rw [Nat.min_comm]
  rfl

/-- C9 witness state: two stored documents. -/
def c9State : ChatbotState :=
  { document_store :=
      [ { content := jsonDumps ⟨"user", "hello", "t1"⟩, conversation_id := some "c1",
          timestamp := "t1", role := "user" },
        { content := jsonDumps ⟨"assistant", "hi", "t2"⟩, conversation_id := some "c1",
          timestamp := "t2", role := "assistant" } ],
    current_conversation_id := some "c1",
    messages := [] }

theorem search_empty_query_matches_all_witness :
    (∀ d ∈ c9State.document_store, ∃ m : Message, d.content = jsonDumps m)
    ∧ (search_conversations c9State "" 5).length = min c9State.document_store.length 5 := by
  have hh : ∀ d ∈ c9State.document_store, ∃ m : Message, d.content = jsonDumps m := by
    intro d hd
    simp only [c9State, List.mem_cons, List.not_mem_nil, or_false] at hd
    rcases hd with rfl | rfl
    · exact ⟨⟨"user", "hello", "t1"⟩, rfl⟩
    · exact ⟨⟨"assistant", "hi", "t2"⟩, rfl⟩
  exact ⟨hh, search_empty_query_matches_all c9State hh⟩

/-- C10 (amended): an explicit empty-string id is falsy in Python, so
`get_conversation_history("")` never filters by the empty id — it falls back
to the current conversation, and when no conversation is active (id `None`
or `""`) it returns the empty sequence.  (The result can also be empty for an
active conversation with no stored records, refuted separately.) -/
theorem history_empty_id_falls_back (st : ChatbotState) :
    get_conversation_history st (some "") = get_conversation_history st none
    ∧ (truthyOptStr st.current_conversation_id = false →
        get_conversation_history st (some "") = []) := by
  constructor
  · simp [get_conversation_history]
  · intro h
    cases hc : st.current_conversation_id with
    | none => simp [get_conversation_history, hc]
    | some c =>
      have hce : c = "" := by
        rw [hc] at h
        simpa [truthyOptStr] using h
      subst hce
      simp [get_conversation_history, hc]

/-- C10 counterexample state: a conversation is active but nothing is
stored. -/
def c10State : ChatbotState :=
  { document_store := [], current_conversation_id := some "c1", messages := [] }

/-- C10, "only when no conversation is active" refuted: with conversation
`"c1"` active and no stored records, `history("")` is empty even though a
conversation is active. -/
theorem history_empty_id_counterexample :
    get_conversation_history c10State (some "") = []
    ∧ truthyOptStr c10State.current_conversation_id = true := by
  constructor
  · simp [get_conversation_history, c10State]
  · decide

theorem history_empty_id_falls_back_witness :
    get_conversation_history c10State (some "") = get_conversation_history c10State none
    ∧ (truthyOptStr c10State.current_conversation_id = false →
        get_conversation_history c10State (some "") = []) :=
  history_empty_id_falls_back c10State

/-- C4 (amended): `start_new_conversation` clears the in-memory buffer, and
provided the freshly generated id collides with no stored record's
conversation id, `history()` immediately afterwards is empty. -/
theorem start_then_history_empty (st : ChatbotState) (now : String)
    (h : ∀ d ∈ st.document_store, ¬ d.conversation_id = some now) :
    get_conversation_history (start_new_conversation st now).2 none = []
    ∧ (start_new_conversation st now).2.messages = [] := by
  refine ⟨?_, rfl⟩
  simp only [get_conversation_history, start_new_conversation]
  by_cases hn : now = ""
  · simp [hn]
  · simp only [if_neg hn]
    have hf : st.document_store.filter (fun d => d.conversation_id == some now) = [] := by
      rw [List.filter_eq_nil_iff]
      intro d hd
      simp [h d hd]
    rw [hf]
    simp

/-- C4 counterexample: the id generator has second granularity, so the new
conversation can reuse an id that already tags stored records (the spec's
same-second duplicate-id edge case); `history()` right after `start` then
returns those old records, not the empty sequence. -/
def c4State : ChatbotState :=
  { document_store :=
      [ { content := jsonDumps ⟨"user", "hi", "2024-01-01T00:00:00"⟩,
          conversation_id := some "20240101_000000",
          timestamp := "2024-01-01T00:00:00", role := "user" } ],
    current_conversation_id := some "20240101_000000",
    messages := [] }

theorem start_collision_counterexample :
    ¬ (get_conversation_history
        (start_new_conversation c4State "20240101_000000").2 none = []) := by
  simp only [start_new_conversation, get_conversation_history, c4State]
  rw [if_neg (by decide : ¬ "20240101_000000" = "")]
  simp +decide [jsonLoads_jsonDumps]

theorem start_then_history_empty_witness :
    (∀ d ∈ c10State.document_store, ¬ d.conversation_id = some "20240101_000001")
    ∧ (get_conversation_history (start_new_conversation c10State "20240101_000001").2 none = []
      ∧ (start_new_conversation c10State "20240101_000001").2.messages = []) := by
  have hh : ∀ d ∈ c10State.document_store, ¬ d.conversation_id = some "20240101_000001" := by
    intro d hd
    simp [c10State] at hd
  exact ⟨hh, start_then_history_empty c10State "20240101_000001" hh⟩

theorem get_conversation_history_curr (st : ChatbotState) (cid : String)
    (h1 : st.current_conversation_id = some cid) :
    get_conversation_history st none = get_conversation_history st (some cid) := by
  by_cases h2 : cid = ""
  · subst h2
    simp [get_conversation_history, h1]
  · simp only [get_conversation_history, h1, if_neg h2]

theorem history_length_after_store (st : ChatbotState) (cid role content ts : String)
    (h1 : st.current_conversation_id = some cid) (h2 : ¬ cid = "") :
    (get_conversation_history (store_message st role content ts) (some cid)).length
      = (get_conversation_history st (some cid)).length + 1 := by
  rw [get_conversation_history_some _ _ h2, get_conversation_history_some _ _ h2]
  simp [store_message, List.filter_append, List.filterMap_append, h1, jsonLoads_jsonDumps]

/-- C1: when the completion collaborator raises, `chat` does not propagate:
it returns exactly `"Error: " ++ str(e)`, the store gains exactly the one
user document (no assistant document), and the conversation's history gains
exactly one entry. -/
theorem chat_error_degraded_reply (st : ChatbotState) (cid input e newId tsU tsA : String)
    (h1 : st.current_conversation_id = some cid) (h2 : ¬ cid = "") :
    (chat st input newId tsU (Except.error e) tsA).1 = "Error: " ++ e
    ∧ (chat st input newId tsU (Except.error e) tsA).2.document_store
        = st.document_store
          ++ [{ content := jsonDumps ⟨"user", input, tsU⟩, conversation_id := some cid,
                timestamp := tsU, role := "user" }]
    ∧ (get_conversation_history (chat st input newId tsU (Except.error e) tsA).2 none).length
        = (get_conversation_history st none).length + 1 := by
  have htr : truthyOptStr st.current_conversation_id = true := by
    rw [h1]
    simp [truthyOptStr, h2]
  have hpre : chat_pre st input newId tsU = store_message st "user" input tsU := by
    rw [chat_pre, if_pos htr]
  refine ⟨rfl, ?_, ?_⟩
  · show (chat_pre st input newId tsU).document_store = _
    rw [hpre, store_message]
    simp [h1]
  · show (get_conversation_history (chat_pre st input newId tsU) none).length = _
    rw [hpre,
      get_conversation_history_curr _ cid (by simp [store_message, h1]),
      get_conversation_history_curr st cid h1]
    exact history_length_after_store st cid "user" input tsU h1 h2

def c1State : ChatbotState :=
  { document_store := [], current_conversation_id := some "c1", messages := [] }

theorem chat_error_degraded_reply_witness :
    c1State.current_conversation_id = some "c1"
    ∧ ((chat c1State "x" "n" "t1" (Except.error "boom") "t2").1 = "Error: " ++ "boom"
      ∧ (chat c1State "x" "n" "t1" (Except.error "boom") "t2").2.document_store
          = c1State.document_store
            ++ [{ content := jsonDumps ⟨"user", "x", "t1"⟩, conversation_id := some "c1",
                  timestamp := "t1", role := "user" }]
      ∧ (get_conversation_history
            (chat c1State "x" "n" "t1" (Except.error "boom") "t2").2 none).length
          = (get_conversation_history c1State none).length + 1) :=
  ⟨rfl, chat_error_degraded_reply c1State "c1" "x" "boom" "n" "t1" "t2" rfl (by decide)⟩

/-- C5: storing a message and reading the conversation back returns that
message with role, content and timestamp unchanged — in particular the
`json.dumps`/`json.loads` cycle is the identity on the message. -/
theorem store_message_history_roundtrip (st : ChatbotState) (cid role content ts : String)
    (h1 : st.current_conversation_id = some cid) (h2 : ¬ cid = "") :
    jsonLoads (jsonDumps ⟨role, content, ts⟩) = some ⟨role, content, ts⟩
    ∧ (⟨role, content, ts⟩ : Message)
        ∈ get_conversation_history (store_message st role content ts) (some cid) := by
  refine ⟨jsonLoads_jsonDumps _, ?_⟩
  rw [get_conversation_history_some _ _ h2, List.mem_mergeSort]
  simp [store_message, List.filter_append, List.filterMap_append, h1, jsonLoads_jsonDumps]

def c5State : ChatbotState :=
  { document_store := [], current_conversation_id := some "c5", messages := [] }

theorem store_message_history_roundtrip_witness :
    c5State.current_conversation_id = some "c5"
    ∧ (jsonLoads (jsonDumps ⟨"user", "payload \"x\"", "t1"⟩)
        = some ⟨"user", "payload \"x\"", "t1"⟩
      ∧ (⟨"user", "payload \"x\"", "t1"⟩ : Message)
          ∈ get_conversation_history
              (store_message c5State "user" "payload \"x\"" "t1") (some "c5")) :=
  ⟨rfl, store_message_history_roundtrip c5State "c5" "user" "payload \"x\"" "t1" rfl
    (by decide)⟩

/-- C6: on a fresh conversation, a successful send stores the user message
before the collaborator result is consulted (`chat_pre`), and the history
afterwards is exactly the user message followed by the assistant message,
given a monotone clock (`tsU ≤ tsA`). -/
theorem chat_success_fresh (st : ChatbotState) (cid input reply newId tsU tsA : String)
    (h1 : st.current_conversation_id = some cid) (h2 : ¬ cid = "")
    (h3 : ∀ d ∈ st.document_store, ¬ d.conversation_id = some cid)
    (h4 : tsU ≤ tsA) :
    (chat st input newId tsU (Except.ok reply) tsA).1 = reply
    ∧ get_conversation_history (chat st input newId tsU (Except.ok reply) tsA).2 none
        = [⟨"user", input, tsU⟩, ⟨"assistant", reply, tsA⟩]
    ∧ (chat_pre st input newId tsU).document_store
        = st.document_store
          ++ [{ content := jsonDumps ⟨"user", input, tsU⟩, conversation_id := some cid,
                timestamp := tsU, role := "user" }] := by
  have htr : truthyOptStr st.current_conversation_id = true := by
    rw [h1]
    simp [truthyOptStr, h2]
  have hpre : chat_pre st input newId tsU = store_message st "user" input tsU := by
    rw [chat_pre, if_pos htr]
  refine ⟨rfl, ?_, ?_⟩
  · have hst2 : (chat st input newId tsU (Except.ok reply) tsA).2
        = store_message (store_message st "user" input tsU) "assistant" reply tsA := by
      simp only [chat, hpre]
    have hfilter : st.document_store.filter (fun d => d.conversation_id == some cid) = [] := by
      rw [List.filter_eq_nil_iff]
      intro d hd
      simp [h3 d hd]
    rw [hst2, get_conversation_history_curr _ cid (by simp [store_message, h1]),
      get_conversation_history_some _ _ h2]
    simp only [store_message, h1, List.filter_append, hfilter, List.filterMap_append,
      List.filter_cons, List.filter_nil, List.filterMap_cons, List.filterMap_nil,
      jsonLoads_jsonDumps, beq_self_eq_true, if_pos, List.nil_append, List.append_nil]
    refine List.mergeSort_of_sorted
      (List.Pairwise.cons (fun b hb => ?_) (List.pairwise_singleton _ _))
    simp at hb
    subst hb
    exact decide_eq_true h4
  · rw [hpre, store_message]
    simp [h1]

theorem chat_success_fresh_witness :
    c1State.current_conversation_id = some "c1"
    ∧ ("t1" : String) ≤ "t2"
    ∧ ((chat c1State "Hello" "n" "t1" (Except.ok "Hi there") "t2").1 = "Hi there"
      ∧ get_conversation_history (chat c1State "Hello" "n" "t1" (Except.ok "Hi there") "t2").2 none
          = [⟨"user", "Hello", "t1"⟩, ⟨"assistant", "Hi there", "t2"⟩]
      ∧ (chat_pre c1State "Hello" "n" "t1").document_store
          = c1State.document_store
            ++ [{ content := jsonDumps ⟨"user", "Hello", "t1"⟩, conversation_id := some "c1",
                  timestamp := "t1", role := "user" }]) :=
  ⟨rfl, by rw [String.le_iff_toList_le]; decide,
    chat_success_fresh c1State "c1" "Hello" "Hi there" "n" "t1" "t2" rfl (by decide)
      (by intro d hd; simp [c1State] at hd)
      (by rw [String.le_iff_toList_le]; decide)⟩

/-- C7: history output is always sorted ascending by timestamp, and under a
monotone clock every conversation's stored records carry non-decreasing
timestamps in storage order. -/
theorem history_sorted_and_store_monotone :
    (∀ (st : ChatbotState) (cido : Option String),
      ((get_conversation_history st cido).map (fun m => m.timestamp)).Pairwise (· ≤ ·))
    ∧ ∀ ops : List Op, (traceStamps ops).Pairwise (· ≤ ·) →
        ∀ cid : String,
          (((runOps initialState ops).document_store.filter
              (fun d => d.conversation_id == some cid)).map
                (fun d => d.timestamp)).Pairwise (· ≤ ·) := by
  refine ⟨history_sorted, fun ops h cid => ?_⟩
  have hs : storeStamps (runOps initialState ops) = traceStamps ops := by
    rw [storeStamps_runOps]
    rfl
  have hsub : List.Sublist
      (((runOps initialState ops).document_store.filter
        (fun d => d.conversation_id == some cid)).map (fun d => d.timestamp))
      (storeStamps (runOps initialState ops)) :=
    List.Sublist.map _ (List.filter_sublist _)
  rw [hs] at hsub
  exact List.Pairwise.sublist hsub h

def c7Ops : List Op :=
  [Op.startOp "c1", Op.sendOp "hi" "n" "t1" (Except.ok "yo") "t2"]

theorem history_sorted_and_store_monotone_witness :
    (traceStamps c7Ops).Pairwise (fun a b => a ≤ b)
    ∧ (((runOps initialState c7Ops).document_store.filter
        (fun d => d.conversation_id == some "c1")).map
          (fun d => d.timestamp)).Pairwise (· ≤ ·) := by
  have hp : (traceStamps c7Ops).Pairwise (fun a b : String => a ≤ b) := by
    rw [show traceStamps c7Ops = ["t1", "t2"] from rfl]
    refine List.Pairwise.cons (fun b hb => ?_) (List.pairwise_singleton _ _)
    simp only [List.mem_singleton] at hb
    subst hb
    rw [String.le_iff_toList_le]
    decide
  exact ⟨hp, history_sorted_and_store_monotone.2 c7Ops hp "c1"⟩

end ClaudeApi